import Mathlib

/-!
Verification development for the oneai-python SDK's client-side pipeline
composition and result-tree model. The repository material is documentation
and examples; the spec (spec.md) describes the latent engineering core:
Skill Descriptor, Pipeline Builder, Request Encoder, Result Tree Builder and
Output Accessor Layer. All definitions below are modelled from the spec,
since the implementation source is not part of the repository material.
-/

namespace OneAI

/-- Modelled from the spec: §3 SkillDescriptor `kind` field, determining
branching behavior downstream (`Analyzer | Generator`). The implementation
source is missing from the repository; only READMEs and examples exist. -/
inductive SkillKind where
  | analyzer
  | generator
deriving DecidableEq, Repr

/-- Modelled from the spec: §3 SkillDescriptor
`{name: string, params: mapping<string,value>, kind: Analyzer|Generator}`,
immutable once constructed. Parameter values are modelled as strings. -/
structure SkillDescriptor where
  name : String
  params : List (String × String)
  kind : SkillKind
deriving DecidableEq, Repr

/-- Modelled from the spec: §3 PipelineSpec, an ordered sequence of
SkillDescriptor; order is semantically significant. -/
structure PipelineSpec where
  steps : List SkillDescriptor
deriving DecidableEq, Repr

/-- Modelled from the spec: §3 Span
`{start:int, end:int, section:int, text:string}`. Lean reserves `end` and
`section`, so the fields are named `start`, `endIdx`, `sectionIdx`, `text`. -/
structure Span where
  start : Int
  endIdx : Int
  sectionIdx : Int
  text : String
deriving DecidableEq, Repr

/-- Modelled from the spec: §3 Label
`{type: string, name: optional string, spans: ordered sequence of Span,
value: optional scalar}`. -/
structure Label where
  type : String
  name : Option String
  spans : List Span
  value : Option String
deriving DecidableEq, Repr

/-- Modelled from the spec: §3 conversation utterance
`{speaker: string, text: string}`. -/
structure Utterance where
  speaker : String
  text : String
deriving DecidableEq, Repr

/-- Modelled from the spec: §3 InputPayload, a tagged union over
{PlainText, ConversationUtterances, FileHandle(bytes + declared extension)}.
The `unrecognized` constructor represents a payload whose tag is none of the
recognized variants, which §4.3 requires the Request Encoder to reject with
`UnsupportedInputError`. -/
inductive InputPayload where
  | plainText (text : String)
  | conversationUtterances (utterances : List Utterance)
  | fileHandle (bytes : List Nat) (extension : String)
  | unrecognized (tag : String)
deriving DecidableEq, Repr

/-- Modelled from the spec: §7 error taxonomy — `ConfigurationError`,
`UnsupportedInputError`, `TransportError`, `MalformedResponseError`,
`LabelNotFoundError`. -/
inductive OneAIError where
  | configurationError (msg : String)
  | unsupportedInputError
  | transportError
  | malformedResponseError (msg : String)
  | labelNotFoundError (skill : String)
deriving DecidableEq, Repr

/-- Modelled from the spec: §6 response shape — each block is
`{block_id, origin_step_id (0 = original input), origin_step_name, text,
labels}` together with the parent/origin back-reference of §4.4 step 2
(`parent_block_id`, the `block_id` of the block the generating step read;
ignored for the root block, whose `origin_step_id` is 0). -/
structure ResponseBlock where
  block_id : Nat
  origin_step_id : Nat
  origin_step_name : String
  parent_block_id : Nat
  text : String
  labels : List Label
deriving DecidableEq, Repr

/-- Modelled from the spec: §6 response shape — an ordered collection of
blocks. -/
structure Response where
  blocks : List ResponseBlock
deriving DecidableEq, Repr

mutual
/-- Modelled from the spec: §3 OutputNode
`{text, labels: mapping<skill_type, sequence<Label>>, children:
mapping<generator_skill_name, OutputNode>}`, a tree; the children mapping is
modelled as an association list (`ChildMap`). -/
inductive OutputNode where
  | mk (text : String) (labels : List (String × List Label)) (children : ChildMap)

inductive ChildMap where
  | nil
  | cons (name : String) (child : OutputNode) (rest : ChildMap)
end

/-- Modelled from the spec: §3 OutputNode field access — the node's text. -/
def OutputNode.text : OutputNode → String
  | .mk t _ _ => t

/-- Modelled from the spec: §3 OutputNode field access — the labels
mapping. -/
def OutputNode.labels : OutputNode → List (String × List Label)
  | .mk _ ls _ => ls

/-- Modelled from the spec: §3 OutputNode field access — the children
mapping. -/
def OutputNode.children : OutputNode → ChildMap
  | .mk _ _ c => c

/-- Modelled from the spec: §4.5 Output Accessor Layer — each child node is
reachable by the generator skill's name that produced it. -/
def ChildMap.find? : ChildMap → String → Option OutputNode
  | .nil, _ => none
  | .cons k c rest, key => if k = key then some c else ChildMap.find? rest key

/-- Number of entries in a children mapping. -/
def ChildMap.length : ChildMap → Nat
  | .nil => 0
  | .cons _ _ rest => rest.length + 1

/-- Keys of a children mapping, in order. -/
def ChildMap.keys : ChildMap → List String
  | .nil => []
  | .cons k _ rest => k :: rest.keys

mutual
/-- Depth of an OutputNode tree: 0 for a leaf, one more than the deepest
child otherwise (spec §3: depth equals the number of Generator skills). -/
def OutputNode.depth : OutputNode → Nat
  | .mk _ _ c => ChildMap.depths c

def ChildMap.depths : ChildMap → Nat
  | .nil => 0
  | .cons _ child rest => max (child.depth + 1) (ChildMap.depths rest)
end

mutual
/-- Number of nodes in an OutputNode tree. -/
def OutputNode.size : OutputNode → Nat
  | .mk _ _ c => ChildMap.sizes c + 1

def ChildMap.sizes : ChildMap → Nat
  | .nil => 0
  | .cons _ child rest => child.size + ChildMap.sizes rest
end

mutual
/-- Spec §3 invariant: branching is strictly linear — every node in the tree
has at most one child. -/
def OutputNode.isLinear : OutputNode → Bool
  | .mk _ _ c => ChildMap.linearChildren c

def ChildMap.linearChildren : ChildMap → Bool
  | .nil => true
  | .cons _ child .nil => child.isLinear
  | .cons _ _ (.cons _ _ _) => false
end

/-- Modelled from the spec: §4.4 step 5 — a span is valid for a text of
length `len` when its offsets lie within `[0, len]` and `start <= end`. -/
def spanOk (len : Nat) (s : Span) : Bool :=
  decide (0 ≤ s.start ∧ s.start ≤ s.endIdx ∧ s.endIdx ≤ (len : Int))

/-- All spans of a label are valid for a text of length `len`. -/
def labelSpansOk (len : Nat) (l : Label) : Bool :=
  l.spans.all (spanOk len)

/-- All spans of all labels of a response block are valid for the block's
own text (spec §4.4 step 5). -/
def blockSpansOk (b : ResponseBlock) : Bool :=
  b.labels.all (labelSpansOk b.text.length)

/-- All labels in a labels mapping have spans valid for a text of length
`len`. -/
def labelsMapOk (len : Nat) (m : List (String × List Label)) : Bool :=
  m.all (fun e => e.2.all (labelSpansOk len))

mutual
/-- Spec §3 invariant and §8 round-trip property: every span surfaced
anywhere in the tree lies within the bounds of the node that owns it. -/
def OutputNode.spansOk : OutputNode → Bool
  | .mk t ls c => labelsMapOk t.length ls && ChildMap.spansOkAll c

def ChildMap.spansOkAll : ChildMap → Bool
  | .nil => true
  | .cons _ child rest => child.spansOk && ChildMap.spansOkAll rest
end

/-- Modelled from the spec: §4.2 Pipeline Builder — accepts an ordered
sequence of SkillDescriptors, rejects an empty sequence with
`ConfigurationError`, and does not reorder: the PipelineSpec keeps exactly
the submitted sequence. -/
def buildPipeline (steps : List SkillDescriptor) : Except OneAIError PipelineSpec :=
  if steps.isEmpty then
    .error (.configurationError "empty pipeline")
  else
    .ok ⟨steps⟩

/-- Modelled from the spec: §4.3 Request Encoder — the serialized request
body: canonical text or conversation body, or a forwarded byte stream with
its declared type for file input. -/
inductive RequestBody where
  | textBody (text : String)
  | conversationBody (utterances : List Utterance)
  | fileBody (bytes : List Nat) (extension : String)
deriving DecidableEq, Repr

/-- Modelled from the spec: §4.3 Request Encoder — one outbound logical
request combining the encoded input and the skill list. -/
structure EncodedRequest where
  body : RequestBody
  steps : List SkillDescriptor
deriving DecidableEq, Repr

/-- Modelled from the spec: §4.3 Request Encoder — serializes
PlainText/ConversationUtterances, forwards FileHandle bytes and declared
type, and fails with `UnsupportedInputError` if the payload tag is
unrecognized. -/
def encodeRequest (input : InputPayload) (p : PipelineSpec) :
    Except OneAIError EncodedRequest :=
  match input with
  | .plainText t => .ok ⟨.textBody t, p.steps⟩
  | .conversationUtterances us => .ok ⟨.conversationBody us, p.steps⟩
  | .fileHandle bytes ext => .ok ⟨.fileBody bytes ext, p.steps⟩
  | .unrecognized _ => .error .unsupportedInputError

/-- The Analyzer skills that run on the branch rooted at the block produced
by pipeline step `k` (1-based; `k = 0` is the original input): the maximal
run of Analyzer steps directly after position `k`, before the next Generator
(spec §3: a child node holds the labels of all Analyzer skills that ran
after its generator, relative to that branch). -/
def analyzersAfter (steps : List SkillDescriptor) (k : Nat) : List SkillDescriptor :=
  (steps.drop k).takeWhile (fun s => s.kind = SkillKind.analyzer)

/-- Seed labels mapping for a block produced by step `k`: one empty entry
per Analyzer skill that ran on that branch, so that the Output Accessor
Layer can distinguish "ran but found nothing" (empty sequence) from "never
run here" (absent key), as spec §4.5 and §9 require. -/
def seedLabels (steps : List SkillDescriptor) (k : Nat) : List (String × List Label) :=
  (analyzersAfter steps k).map (fun s => (s.name, []))

/-- Insert one response label into the labels mapping: append to the entry
of its skill type, creating the entry at the end if absent; order within a
type is preserved (spec §4.4 step 4). -/
def addLabel (m : List (String × List Label)) (l : Label) : List (String × List Label) :=
  match m with
  | [] => [(l.type, [l])]
  | (t, ls) :: rest =>
    if t = l.type then (t, ls ++ [l]) :: rest else (t, ls) :: addLabel rest l

/-- Partition a block's labels by skill type into the seeded labels mapping,
preserving the order the service returned them (spec §4.4 step 4). -/
def partitionLabels (seed : List (String × List Label)) (labels : List Label) :
    List (String × List Label) :=
  labels.foldl addLabel seed

/-- Look up a skill type's labels in a node's labels mapping. -/
def lookupLabels : List (String × List Label) → String → Option (List Label)
  | [], _ => none
  | (k, v) :: rest, key => if k = key then some v else lookupLabels rest key

/-- Modelled from the spec: §4.5 Output Accessor Layer — per-skill label
access; a skill name not present in the node fails with
`LabelNotFoundError`, never a silently-empty default. -/
def OutputNode.getLabels (n : OutputNode) (skill : String) :
    Except OneAIError (List Label) :=
  match lookupLabels n.labels skill with
  | some ls => .ok ls
  | none => .error (.labelNotFoundError skill)

/-- The blocks of the response that declare `b` as their parent: generated
blocks (origin not the original input) whose parent/origin back-reference is
`b`'s block id (spec §4.4 steps 2-3). -/
def childBlocksOf (blocks : List ResponseBlock) (b : ResponseBlock) :
    List ResponseBlock :=
  blocks.filter (fun c => decide (c.origin_step_id ≠ 0 ∧ c.parent_block_id = b.block_id))

/-- Build the children mapping for a list of child blocks, keyed by the
producing Generator skill's name, in response order; `f` builds the node of
each child block. -/
def buildChildren (f : ResponseBlock → Except OneAIError OutputNode) :
    List ResponseBlock → Except OneAIError ChildMap
  | [] => .ok .nil
  | c :: rest =>
    match f c with
    | .error e => .error e
    | .ok node =>
      match buildChildren f rest with
      | .error e => .error e
      | .ok cm => .ok (.cons c.origin_step_name node cm)

/-- Modelled from the spec: §4.4 Result Tree Builder recursion — build the
OutputNode for block `b`: its children are the blocks declaring `b` as
parent, each attached under the name of the Generator skill that produced it
(spec §4.4 step 3); its labels are the block's labels partitioned by skill
type over the branch's seeded skills (step 4). `fuel` bounds the recursion
depth; a response whose parent references form a cycle exhausts it and fails
with `MalformedResponseError`. -/
def buildNode (steps : List SkillDescriptor) (blocks : List ResponseBlock) :
    Nat → ResponseBlock → Except OneAIError OutputNode
  | 0 => fun _ => .error (.malformedResponseError "parent reference cycle")
  | fuel + 1 => fun b =>
    match buildChildren (buildNode steps blocks fuel) (childBlocksOf blocks b) with
    | .error e => .error e
    | .ok cm =>
      .ok (.mk b.text (partitionLabels (seedLabels steps b.origin_step_id) b.labels) cm)

/-- Every generated block's parent/origin back-reference matches a known
block id (spec §4.4 step 2). -/
def parentsResolve (blocks : List ResponseBlock) : Bool :=
  blocks.all (fun b =>
    b.origin_step_id = 0 || blocks.any (fun p => p.block_id = b.parent_block_id))

/-- Modelled from the spec: §4.4 Result Tree Builder — identify the root
block (origin is the original input, step id 0), resolve every other
block's parent back-reference failing with `MalformedResponseError` on a
dangling reference, validate every span's offsets failing with
`MalformedResponseError` rather than clamping, and attach each block as the
child keyed by the generator skill that produced it. -/
def buildOutputTree (p : PipelineSpec) (resp : Response) :
    Except OneAIError OutputNode :=
  if ¬ parentsResolve resp.blocks then
    .error (.malformedResponseError "dangling parent reference")
  else if ¬ resp.blocks.all blockSpansOk then
    .error (.malformedResponseError "span out of bounds")
  else
    match resp.blocks.find? (fun b => b.origin_step_id = 0) with
    | none => .error (.malformedResponseError "no root block")
    | some root => buildNode p.steps resp.blocks resp.blocks.length root

/-- Modelled from the spec: §6 asynchronous transport — a poll either
reports the job still in progress or delivers the final response. -/
inductive PollResult where
  | inProgress
  | completed (resp : Response)
deriving DecidableEq, Repr

/-- Modelled from the spec: §5/§6 synchronous run path — build the pipeline,
encode the request, send it through the transport collaborator, and feed the
response into the Result Tree Builder. -/
def runPipeline (send : EncodedRequest → Except OneAIError Response)
    (steps : List SkillDescriptor) (input : InputPayload) :
    Except OneAIError OutputNode :=
  match buildPipeline steps with
  | .error e => .error e
  | .ok p =>
    match encodeRequest input p with
    | .error e => .error e
    | .ok req =>
      match send req with
      | .error e => .error e
      | .ok resp => buildOutputTree p resp

/-- Modelled from the spec: §5 asynchronous boundary — poll the job handle
(the poll function is indexed by the attempt number) until the final
response arrives, giving up with `TransportError` after `attempts` polls. -/
def pollUntil (poll : Nat → Nat → Except OneAIError PollResult) (job : Nat) :
    Nat → Nat → Except OneAIError Response
  | _, 0 => .error .transportError
  | attempt, remaining + 1 =>
    match poll job attempt with
    | .error e => .error e
    | .ok (.completed resp) => .ok resp
    | .ok .inProgress => pollUntil poll job (attempt + 1) remaining

/-- Modelled from the spec: §5/§6 asynchronous transport contract — submit
the payload and spec, receive a job handle, poll until the final response,
then feed that response into the Result Tree Builder. -/
def asyncResponse (submit : EncodedRequest → Except OneAIError Nat)
    (poll : Nat → Nat → Except OneAIError PollResult) (attempts : Nat)
    (req : EncodedRequest) : Except OneAIError Response :=
  match submit req with
  | .error e => .error e
  | .ok job => pollUntil poll job 0 attempts

/-- Modelled from the spec: `Pipeline.run_async` — identical to the
synchronous path except that the final response is obtained by
submit-then-poll instead of a single send. -/
def runPipelineAsync (submit : EncodedRequest → Except OneAIError Nat)
    (poll : Nat → Nat → Except OneAIError PollResult) (attempts : Nat)
    (steps : List SkillDescriptor) (input : InputPayload) :
    Except OneAIError OutputNode :=
  match buildPipeline steps with
  | .error e => .error e
  | .ok p =>
    match encodeRequest input p with
    | .error e => .error e
    | .ok req =>
      match asyncResponse submit poll attempts req with
      | .error e => .error e
      | .ok resp => buildOutputTree p resp

/-- Number of Generator skills in a step list. -/
def countGenerators (steps : List SkillDescriptor) : Nat :=
  (steps.filter (fun s => s.kind = SkillKind.generator)).length

/-- Well-formed parent chain hanging off a block with id `pid`: each block
is a generated one whose parent/origin back-reference names the previous
block in the chain (spec §8: "k generated blocks with well-formed parent
chains"). -/
inductive ChainFrom : Nat → List ResponseBlock → Prop
  | nil (pid : Nat) : ChainFrom pid []
  | cons (pid : Nat) (b : ResponseBlock) (rest : List ResponseBlock)
      (horigin : b.origin_step_id ≠ 0) (hparent : b.parent_block_id = pid)
      (hrest : ChainFrom b.block_id rest) : ChainFrom pid (b :: rest)

/-- Linear path structure relative to the full block list: block `b` has,
among all response blocks, either no child block or exactly the next chain
block, continuing for `k` steps. -/
inductive PathFrom (blocks : List ResponseBlock) : ResponseBlock → Nat → Prop
  | nil (b : ResponseBlock) (h : childBlocksOf blocks b = []) : PathFrom blocks b 0
  | cons (b c : ResponseBlock) (k : Nat) (h : childBlocksOf blocks b = [c])
      (hrest : PathFrom blocks c k) : PathFrom blocks b (k + 1)

/-- Labels of a given skill at the root of a tree-building result. -/
def rootLabels (r : Except OneAIError OutputNode) (skill : String) :
    Except OneAIError (List Label) :=
  match r with
  | .error e => .error e
  | .ok t => t.getLabels skill

/-- Labels of a given skill on the child of the root reached by a generator
skill's name, in a tree-building result. -/
def childLabels (r : Except OneAIError OutputNode) (generator : String)
    (skill : String) : Except OneAIError (List Label) :=
  match r with
  | .error e => .error e
  | .ok t =>
    match t.children.find? generator with
    | none => .error (.labelNotFoundError generator)
    | some c => c.getLabels skill

/-- An Analyzer skill descriptor emitting labels of type "sentiment"
(the Sentiments skill of the examples). -/
def sentimentSkill : SkillDescriptor := ⟨"sentiment", [], .analyzer⟩

/-- A Generator skill descriptor named "summarize" (the Summarize skill of
the examples). -/
def summarizeSkill : SkillDescriptor := ⟨"summarize", [], .generator⟩

/-- An Analyzer skill descriptor emitting labels of type "keyword"
(the Keywords skill of the examples). -/
def keywordSkill : SkillDescriptor := ⟨"keyword", [], .analyzer⟩

/-- A sentiment label with one in-bounds span. -/
def sentimentLabel : Label :=
  ⟨"sentiment", none, [⟨0, 4, 0, "anal"⟩], some "POS"⟩

/-- Root response block for the input text "analyze this text.", carrying
one sentiment label. -/
def rootBlockWithSentiment : ResponseBlock :=
  ⟨0, 0, "", 0, "analyze this text.", [sentimentLabel]⟩

/-- Root response block for the input text "analyze this text.", with no
labels. -/
def rootBlockPlain : ResponseBlock :=
  ⟨0, 0, "", 0, "analyze this text.", []⟩

/-- Generated summary block produced by pipeline step 2, no labels. -/
def summaryBlockStep2 : ResponseBlock :=
  ⟨1, 2, "summarize", 0, "a summary.", []⟩

/-- Generated summary block produced by pipeline step 1, carrying one
sentiment label. -/
def summaryBlockStep1 : ResponseBlock :=
  ⟨1, 1, "summarize", 0, "a summary.", [sentimentLabel]⟩

/-- Response consistent with the pipeline [Sentiments, Summarize]: the
sentiment label sits on the root block. -/
def respAnalyzerFirst : Response := ⟨[rootBlockWithSentiment, summaryBlockStep2]⟩

/-- Response consistent with the pipeline [Summarize, Sentiments]: the
sentiment label sits on the generated summary block. -/
def respGeneratorFirst : Response := ⟨[rootBlockPlain, summaryBlockStep1]⟩

/-- A keyword label over "analyze" with one in-bounds span. -/
def keywordLabelAnalyze : Label :=
  ⟨"keyword", some "analyze", [⟨0, 7, 0, "analyze"⟩], none⟩

/-- A keyword label over "text" with one in-bounds span. -/
def keywordLabelText : Label :=
  ⟨"keyword", some "text", [⟨13, 17, 0, "text"⟩], none⟩

/-- Root response block for the input "analyze this text." with two keyword
labels and one sentiment label. -/
def rootBlockMulti : ResponseBlock :=
  ⟨0, 0, "", 0, "analyze this text.", [keywordLabelAnalyze, keywordLabelText, sentimentLabel]⟩

/-- Response for the zero-generator pipeline [Keywords, Sentiments]: a
single root block. -/
def respMulti : Response := ⟨[rootBlockMulti]⟩

/-- Number of nodes of a tree-building result, if it succeeded. -/
def resultSize (r : Except OneAIError OutputNode) : Option Nat :=
  match r with
  | .ok t => some t.size
  | .error _ => none

/-- Number of children of the root of a tree-building result, if it
succeeded. -/
def resultChildCount (r : Except OneAIError OutputNode) : Option Nat :=
  match r with
  | .ok t => some t.children.length
  | .error _ => none

/-- A generated block whose parent/origin back-reference (block id 7) does
not match any known block id. -/
def danglingBlock : ResponseBlock :=
  ⟨1, 1, "summarize", 7, "a summary.", []⟩

/-- Response containing a block with a dangling parent reference. -/
def respDangling : Response := ⟨[rootBlockPlain, danglingBlock]⟩

/-- A label whose span runs past the end of its block's text. -/
def outOfBoundsLabel : Label :=
  ⟨"sentiment", none, [⟨0, 50, 0, "way past the end"⟩], none⟩

/-- A root block of text "hi" carrying the out-of-bounds label. -/
def badSpanBlock : ResponseBlock := ⟨0, 0, "", 0, "hi", [outOfBoundsLabel]⟩

/-- Response containing the out-of-bounds span. -/
def respBadSpan : Response := ⟨[badSpanBlock]⟩

/-- The tree built for the zero-generator pipeline [Keywords, Sentiments]
on `respMulti`: one node, keyword and sentiment labels, no children. -/
def multiTree : OutputNode :=
  .mk "analyze this text."
    [("keyword", [keywordLabelAnalyze, keywordLabelText]),
     ("sentiment", [sentimentLabel])] .nil

/-- The tree built for the pipeline [Sentiments, Summarize] on
`respAnalyzerFirst`: the sentiment label on the root, one summary child. -/
def analyzerFirstTree : OutputNode :=
  .mk "analyze this text." [("sentiment", [sentimentLabel])]
    (.cons "summarize" (.mk "a summary." [] .nil) .nil)

/-- A concrete synchronous transport that answers every request with
`respMulti`. -/
def syncSend : EncodedRequest → Except OneAIError Response :=
  fun _ => .ok respMulti

/-- A concrete asynchronous transport submit returning job handle 0. -/
def jobSubmit : EncodedRequest → Except OneAIError Nat :=
  fun _ => .ok 0

/-- A concrete asynchronous transport poll: in progress on the first
attempt, completed with `respMulti` afterwards. -/
def jobPoll : Nat → Nat → Except OneAIError PollResult :=
  fun _ attempt =>
    if attempt = 0 then .ok .inProgress else .ok (.completed respMulti)

/-- Claim C1: pipeline execution order equals submission order and is
semantically significant — the Pipeline Builder never reorders the skill
sequence, and running [Sentiments, Summarize] against a response consistent
with that order places the sentiment label on the root node, while running
[Summarize, Sentiments] against a response consistent with that order places
it on the summary child node instead. -/
theorem pipeline_order_significant :
    (∀ (steps : List SkillDescriptor) (p : PipelineSpec),
        buildPipeline steps = .ok p → p.steps = steps) ∧
    rootLabels (buildOutputTree ⟨[sentimentSkill, summarizeSkill]⟩ respAnalyzerFirst)
      "sentiment" = .ok [sentimentLabel] ∧
    childLabels (buildOutputTree ⟨[sentimentSkill, summarizeSkill]⟩ respAnalyzerFirst)
      "summarize" "sentiment" = .error (.labelNotFoundError "sentiment") ∧
    rootLabels (buildOutputTree ⟨[summarizeSkill, sentimentSkill]⟩ respGeneratorFirst)
      "sentiment" = .error (.labelNotFoundError "sentiment") ∧
    childLabels (buildOutputTree ⟨[summarizeSkill, sentimentSkill]⟩ respGeneratorFirst)
      "summarize" "sentiment" = .ok [sentimentLabel] := by
  refine ⟨?_, rfl, rfl, rfl, rfl⟩
  intro steps p h
  unfold buildPipeline at h
  split at h
  · exact absurd h (by simp)
  · cases h
    rfl

/-- Claim C1 witness: the Pipeline Builder keeps the submitted two-skill
sequence unchanged. -/
theorem pipeline_order_significant_witness :
    (⟨[sentimentSkill, summarizeSkill]⟩ : PipelineSpec).steps
      = [sentimentSkill, summarizeSkill] :=
  pipeline_order_significant.1 [sentimentSkill, summarizeSkill]
    ⟨[sentimentSkill, summarizeSkill]⟩ rfl

/-- Claim C8: constructing a PipelineSpec from an empty skill sequence fails
with ConfigurationError, and the full run path then fails identically for
every transport and every input — the transport collaborator is never
consulted. -/
theorem empty_pipeline_rejected :
    buildPipeline ([] : List SkillDescriptor)
      = .error (.configurationError "empty pipeline") ∧
    ∀ (send : EncodedRequest → Except OneAIError Response) (input : InputPayload),
      runPipeline send [] input = .error (.configurationError "empty pipeline") := by
  exact ⟨rfl, fun _ _ => rfl⟩

/-- Claim C9: the Request Encoder fails with UnsupportedInputError on a
payload whose tag is unrecognized, and on the full run path this failure is
independent of the transport — no network interaction can have occurred. -/
theorem unrecognized_payload_rejected :
    (∀ (tag : String) (p : PipelineSpec),
        encodeRequest (.unrecognized tag) p = .error .unsupportedInputError) ∧
    ∀ (send : EncodedRequest → Except OneAIError Response)
      (steps : List SkillDescriptor) (tag : String),
      steps ≠ [] →
      runPipeline send steps (.unrecognized tag) = .error .unsupportedInputError := by
  refine ⟨fun _ _ => rfl, ?_⟩
  intro send steps tag h
  cases steps with
  | nil => exact absurd rfl h
  | cons s rest => rfl

/-- Claim C9 witness: a one-skill pipeline run on an unrecognized payload
fails with UnsupportedInputError for a concrete transport. -/
theorem unrecognized_payload_rejected_witness :
    runPipeline (fun _ => .error .transportError) [keywordSkill]
      (.unrecognized "mystery") = .error .unsupportedInputError :=
  unrecognized_payload_rejected.2 (fun _ => .error .transportError)
    [keywordSkill] "mystery" (by simp)

/-- Claim C6: a pipeline with zero Generator skills run on a consistent
response (a single root block with in-bounds spans) yields a tree of
exactly one node with no children; in particular the pipeline
[Keywords, Sentiments] over "analyze this text." with two keyword labels and
one sentiment label yields a single node whose keyword labels have length 2
and whose children mapping is empty. -/
theorem zero_generators_single_node :
    (∀ (p : PipelineSpec) (r : ResponseBlock),
        countGenerators p.steps = 0 → r.origin_step_id = 0 →
        blockSpansOk r = true →
        ∃ t, buildOutputTree p ⟨[r]⟩ = .ok t ∧ t.size = 1 ∧
          t.children = ChildMap.nil) ∧
    rootLabels (buildOutputTree ⟨[keywordSkill, sentimentSkill]⟩ respMulti) "keyword"
      = .ok [keywordLabelAnalyze, keywordLabelText] ∧
    resultSize (buildOutputTree ⟨[keywordSkill, sentimentSkill]⟩ respMulti) = some 1 ∧
    resultChildCount (buildOutputTree ⟨[keywordSkill, sentimentSkill]⟩ respMulti)
      = some 0 := by
  refine ⟨?_, rfl, rfl, rfl⟩
  intro p r hc h0 hs
  refine ⟨.mk r.text (partitionLabels (seedLabels p.steps r.origin_step_id) r.labels)
    .nil, ?_, rfl, rfl⟩
  unfold buildOutputTree
  have h1 : parentsResolve [r] = true := by
    simp [parentsResolve, h0]
  have h2 : List.all [r] blockSpansOk = true := by
    simp [hs]
  rw [if_neg (by simp [h1]), if_neg (by simp [h2])]
  have h3 : List.find? (fun b => decide (b.origin_step_id = 0)) [r] = some r := by
    simp [List.find?, h0]
  rw [h3]
  show buildNode p.steps [r] 1 r = _
  unfold buildNode
  have h4 : childBlocksOf [r] r = [] := by
    simp [childBlocksOf, h0]
  rw [h4]
  rfl

/-- Claim C6 witness: the concrete zero-generator pipeline
[Keywords, Sentiments] on its single-block response yields a one-node tree
with no children. -/
theorem zero_generators_single_node_witness :
    ∃ t, buildOutputTree ⟨[keywordSkill, sentimentSkill]⟩ ⟨[rootBlockMulti]⟩
      = .ok t ∧ t.size = 1 ∧ t.children = ChildMap.nil :=
  zero_generators_single_node.1 ⟨[keywordSkill, sentimentSkill]⟩ rootBlockMulti
    (by decide) (by decide) (by decide)

/-- Claim C3: a response containing a generated block whose parent/origin
back-reference matches no known block id makes the Result Tree Builder fail
with MalformedResponseError; no tree — in particular none attaching the
block to the root — is produced. -/
theorem dangling_parent_rejected :
    ∀ (p : PipelineSpec) (resp : Response) (b : ResponseBlock),
      b ∈ resp.blocks → b.origin_step_id ≠ 0 →
      (∀ q ∈ resp.blocks, q.block_id ≠ b.parent_block_id) →
      ∃ msg, buildOutputTree p resp = .error (.malformedResponseError msg) := by
  intro p resp b hmem h0 hq
  refine ⟨"dangling parent reference", ?_⟩
  unfold buildOutputTree
  rw [if_pos]
  intro hpr
  unfold parentsResolve at hpr
  rw [List.all_eq_true] at hpr
  have hb := hpr b hmem
  simp only [Bool.or_eq_true, decide_eq_true_eq, List.any_eq_true] at hb
  rcases hb with h | ⟨q, hqmem, hqid⟩
  · exact h0 h
  · exact hq q hqmem hqid

/-- Claim C3 witness: the concrete response whose second block declares the
unknown parent id 7 is rejected with MalformedResponseError. -/
theorem dangling_parent_rejected_witness :
    ∃ msg, buildOutputTree ⟨[sentimentSkill, summarizeSkill]⟩ respDangling
      = .error (.malformedResponseError msg) :=
  dangling_parent_rejected ⟨[sentimentSkill, summarizeSkill]⟩ respDangling
    danglingBlock (by decide) (by decide) (by decide)

theorem labelsMapOk_addLabel (len : Nat) (m : List (String × List Label))
    (l : Label) (hm : labelsMapOk len m = true)
    (hl : labelSpansOk len l = true) :
    labelsMapOk len (addLabel m l) = true := by
  induction m with
  | nil => simp [addLabel, labelsMapOk, hl]
  | cons e rest ih =>
    obtain ⟨t, ls⟩ := e
    simp only [labelsMapOk, List.all_cons, Bool.and_eq_true] at hm
    by_cases ht : t = l.type
    · simp [addLabel, ht, labelsMapOk, List.all_append, hm.1, hm.2, hl]
    · have := ih (by simpa [labelsMapOk] using hm.2)
      simp [addLabel, ht, labelsMapOk, hm.1]
      simpa [labelsMapOk] using this

theorem labelsMapOk_partition (len : Nat) (seed : List (String × List Label))
    (ls : List Label) (hs : labelsMapOk len seed = true)
    (hl : ∀ l ∈ ls, labelSpansOk len l = true) :
    labelsMapOk len (partitionLabels seed ls) = true := by
  induction ls generalizing seed with
  | nil => simpa [partitionLabels]
  | cons l rest ih =>
    have h1 : labelsMapOk len (addLabel seed l) = true :=
      labelsMapOk_addLabel len seed l hs (hl l (List.mem_cons_self l rest))
    have h2 : ∀ x ∈ rest, labelSpansOk len x = true :=
      fun x hx => hl x (List.mem_cons_of_mem l hx)
    simpa [partitionLabels] using ih (addLabel seed l) h1 h2

theorem labelsMapOk_seed (len : Nat) (steps : List SkillDescriptor) (k : Nat) :
    labelsMapOk len (seedLabels steps k) = true := by
  simp [labelsMapOk, seedLabels, List.all_eq_true]

theorem buildChildren_spansOk (f : ResponseBlock → Except OneAIError OutputNode) :
    ∀ (cs : List ResponseBlock) (cm : ChildMap),
      (∀ c ∈ cs, ∀ node, f c = .ok node → node.spansOk = true) →
      buildChildren f cs = .ok cm → ChildMap.spansOkAll cm = true := by
  intro cs
  induction cs with
  | nil =>
    intro cm _ h
    unfold buildChildren at h
    cases h
    rfl
  | cons c rest ih =>
    intro cm hf h
    unfold buildChildren at h
    split at h
    · cases h
    · rename_i node hnode
      split at h
      · cases h
      · rename_i cm' hcm
        cases h
        show (node.spansOk && ChildMap.spansOkAll cm') = true
        rw [Bool.and_eq_true]
        exact ⟨hf c (List.mem_cons_self c rest) node hnode,
          ih cm' (fun x hx => hf x (List.mem_cons_of_mem c hx)) hcm⟩

theorem buildNode_spansOk (steps : List SkillDescriptor)
    (blocks : List ResponseBlock)
    (hall : ∀ c ∈ blocks, blockSpansOk c = true) :
    ∀ (fuel : Nat) (b : ResponseBlock) (node : OutputNode),
      blockSpansOk b = true → buildNode steps blocks fuel b = .ok node →
      node.spansOk = true := by
  intro fuel
  induction fuel with
  | zero =>
    intro b node _ h
    cases h
  | succ fuel ih =>
    intro b node hb h
    unfold buildNode at h
    split at h
    · cases h
    · cases h
      rename_i cm hcm
      show OutputNode.spansOk (.mk b.text _ cm) = true
      unfold OutputNode.spansOk
      rw [Bool.and_eq_true]
      refine ⟨?_, ?_⟩
      · refine labelsMapOk_partition _ _ _ (labelsMapOk_seed _ _ _) ?_
        intro l hl
        have := hb
        unfold blockSpansOk at this
        rw [List.all_eq_true] at this
        exact this l hl
      · refine buildChildren_spansOk _ _ cm ?_ hcm
        intro c hc nd hnd
        have hcmem : c ∈ blocks := by
          have := hc
          unfold childBlocksOf at this
          exact List.mem_of_mem_filter this
        exact ih c nd (hall c hcmem) hnd

/-- Claim C4: every span surfaced on any OutputNode produced by the Result
Tree Builder lies within `[0, len(node.text)]` with `start <= end`; and a
response containing a span violating these bounds makes the builder fail
with MalformedResponseError instead of clamping. -/
theorem span_bounds_enforced :
    (∀ (p : PipelineSpec) (resp : Response) (t : OutputNode),
        buildOutputTree p resp = .ok t → t.spansOk = true) ∧
    (∀ (p : PipelineSpec) (resp : Response),
        resp.blocks.all blockSpansOk = false →
        ∃ msg, buildOutputTree p resp = .error (.malformedResponseError msg)) := by
  constructor
  · intro p resp t h
    unfold buildOutputTree at h
    split at h
    · cases h
    · split at h
      · cases h
      · rename_i hsp
        split at h
        · cases h
        · rename_i root hfind
          have hall : resp.blocks.all blockSpansOk = true := by
            by_contra hc
            exact hsp (by simpa using hc)
          have hroot : root ∈ resp.blocks := List.mem_of_find?_eq_some hfind
          rw [List.all_eq_true] at hall
          exact buildNode_spansOk p.steps resp.blocks hall resp.blocks.length
            root t (hall root hroot) h
  · intro p resp hf
    by_cases hpr : parentsResolve resp.blocks = true
    · refine ⟨"span out of bounds", ?_⟩
      unfold buildOutputTree
      rw [if_neg (by simp [hpr]), if_pos (by simp [hf])]
    · refine ⟨"dangling parent reference", ?_⟩
      unfold buildOutputTree
      rw [if_pos (by simpa using hpr)]

/-- Claim C4 witness: the tree built for [Keywords, Sentiments] on the
concrete response has all spans in bounds, and the concrete response whose
span runs past its two-character text is rejected with
MalformedResponseError. -/
theorem span_bounds_enforced_witness :
    multiTree.spansOk = true ∧
    ∃ msg, buildOutputTree ⟨[sentimentSkill]⟩ respBadSpan
      = .error (.malformedResponseError msg) :=
  ⟨span_bounds_enforced.1 ⟨[keywordSkill, sentimentSkill]⟩ respMulti multiTree rfl,
   span_bounds_enforced.2 ⟨[sentimentSkill]⟩ respBadSpan (by decide)⟩

theorem lookup_addLabel_ne (m : List (String × List Label)) (l : Label)
    (key : String) (h : l.type ≠ key) :
    lookupLabels (addLabel m l) key = lookupLabels m key := by
  induction m with
  | nil => simp [addLabel, lookupLabels, h]
  | cons e rest ih =>
    obtain ⟨t, ls⟩ := e
    by_cases ht : t = l.type
    · simp [addLabel, ht, lookupLabels, h]
    · simp only [addLabel, if_neg ht, lookupLabels]
      by_cases hk : t = key
      · simp [hk]
      · simp [hk, ih]

theorem lookup_partition_none (ls : List Label)
    (seed : List (String × List Label)) (key : String)
    (h : ∀ l ∈ ls, l.type ≠ key) :
    lookupLabels (partitionLabels seed ls) key = lookupLabels seed key := by
  induction ls generalizing seed with
  | nil => simp [partitionLabels]
  | cons l rest ih =>
    have h1 : lookupLabels (partitionLabels (addLabel seed l) rest) key
        = lookupLabels (addLabel seed l) key :=
      ih (addLabel seed l) (fun x hx => h x (List.mem_cons_of_mem l hx))
    have h2 : lookupLabels (addLabel seed l) key = lookupLabels seed key :=
      lookup_addLabel_ne seed l key (h l (List.mem_cons_self l rest))
    simpa [partitionLabels, h2] using h1

theorem lookup_seed (skills : List SkillDescriptor) (key : String) :
    lookupLabels (skills.map (fun s => (s.name, []))) key
      = if key ∈ skills.map SkillDescriptor.name then some [] else none := by
  induction skills with
  | nil => simp [lookupLabels]
  | cons a rest ih =>
    by_cases hk : a.name = key
    · simp [lookupLabels, hk]
    · simp only [List.map_cons, lookupLabels, if_neg hk, ih, List.mem_cons]
      have : ¬ key = a.name := fun hc => hk hc.symm
      simp [this]

/-- Claim C5: on a node the Result Tree Builder produced, a skill that ran
on that node's branch but has no labels there is accessed as the empty
sequence, while a skill name that never ran on that branch (and produced no
label) is rejected with LabelNotFoundError — never a silently-empty
default. -/
theorem accessor_three_way :
    ∀ (steps : List SkillDescriptor) (blocks : List ResponseBlock) (fuel : Nat)
      (b : ResponseBlock) (node : OutputNode) (key : String),
      buildNode steps blocks (fuel + 1) b = .ok node →
      (∀ l ∈ b.labels, l.type ≠ key) →
      ((key ∈ (analyzersAfter steps b.origin_step_id).map SkillDescriptor.name →
          node.getLabels key = .ok []) ∧
       (key ∉ (analyzersAfter steps b.origin_step_id).map SkillDescriptor.name →
          node.getLabels key = .error (.labelNotFoundError key))) := by
  intro steps blocks fuel b node key h hnol
  unfold buildNode at h
  split at h
  · cases h
  · rename_i cm hcm
    cases h
    have hlook :
        lookupLabels (partitionLabels (seedLabels steps b.origin_step_id) b.labels) key
          = lookupLabels (seedLabels steps b.origin_step_id) key :=
      lookup_partition_none b.labels _ key hnol
    constructor
    · intro hk
      unfold OutputNode.getLabels
      simp only [OutputNode.labels]
      rw [hlook]
      unfold seedLabels
      rw [lookup_seed, if_pos hk]
    · intro hk
      unfold OutputNode.getLabels
      simp only [OutputNode.labels]
      rw [hlook]
      unfold seedLabels
      rw [lookup_seed, if_neg hk]

/-- Claim C5 witness: on the node built for the one-analyzer pipeline
[Keywords] over a label-free root block, accessing "keyword" yields the
empty sequence while accessing "missing" fails with LabelNotFoundError. -/
theorem accessor_three_way_witness :
    (OutputNode.mk "analyze this text." [("keyword", [])] ChildMap.nil).getLabels
        "keyword" = .ok [] ∧
    (OutputNode.mk "analyze this text." [("keyword", [])] ChildMap.nil).getLabels
        "missing" = .error (.labelNotFoundError "missing") :=
  ⟨(accessor_three_way [keywordSkill] [rootBlockPlain] 0 rootBlockPlain _ "keyword"
      rfl (by simp [rootBlockPlain])).1 (by decide),
   (accessor_three_way [keywordSkill] [rootBlockPlain] 0 rootBlockPlain _ "missing"
      rfl (by simp [rootBlockPlain])).2 (by decide)⟩

theorem buildNode_text (steps : List SkillDescriptor)
    (blocks : List ResponseBlock) (fuel : Nat) (b : ResponseBlock)
    (node : OutputNode) (h : buildNode steps blocks fuel b = .ok node) :
    node.text = b.text := by
  cases fuel with
  | zero => cases h
  | succ fuel =>
    unfold buildNode at h
    split at h
    · cases h
    · cases h
      rfl

theorem buildChildren_find (f : ResponseBlock → Except OneAIError OutputNode) :
    ∀ (cs : List ResponseBlock) (cm : ChildMap),
      buildChildren f cs = .ok cm →
      (cs.map ResponseBlock.origin_step_name).Nodup →
      ∀ c ∈ cs, ∃ nd, ChildMap.find? cm c.origin_step_name = some nd ∧
        f c = .ok nd := by
  intro cs
  induction cs with
  | nil =>
    intro cm _ _ c hc
    cases hc
  | cons a rest ih =>
    intro cm h hnd c hc
    unfold buildChildren at h
    split at h
    · cases h
    · rename_i node hnode
      split at h
      · cases h
      · rename_i cm' hcm
        cases h
        rw [List.map_cons, List.nodup_cons] at hnd
        rcases List.mem_cons.1 hc with rfl | hcr
        · exact ⟨node, by simp [ChildMap.find?], hnode⟩
        · have hne : a.origin_step_name ≠ c.origin_step_name := by
            intro he
            exact hnd.1 (he ▸ List.mem_map_of_mem ResponseBlock.origin_step_name hcr)
          obtain ⟨nd, hfind, hf⟩ := ih cm' hcm hnd.2 c hcr
          exact ⟨nd, by simpa [ChildMap.find?, hne] using hfind, hf⟩

/-- Claim C7: in the tree the Result Tree Builder produces, each generated
block is attached to its parent's node as the child keyed by the name of the
Generator skill that produced it, and that child is reachable from the
parent node by that name. -/
theorem generated_block_attached :
    ∀ (steps : List SkillDescriptor) (blocks : List ResponseBlock) (fuel : Nat)
      (b : ResponseBlock) (node : OutputNode) (c : ResponseBlock),
      buildNode steps blocks (fuel + 1) b = .ok node →
      c ∈ childBlocksOf blocks b →
      ((childBlocksOf blocks b).map ResponseBlock.origin_step_name).Nodup →
      ∃ child, node.children.find? c.origin_step_name = some child ∧
        child.text = c.text := by
  intro steps blocks fuel b node c h hc hnd
  unfold buildNode at h
  split at h
  · cases h
  · rename_i cm hcm
    cases h
    obtain ⟨nd, hfind, hf⟩ := buildChildren_find _ _ cm hcm hnd c hc
    exact ⟨nd, by simpa [OutputNode.children] using hfind,
      buildNode_text steps blocks fuel c nd hf⟩

/-- Claim C7 witness: in the concrete [Sentiments, Summarize] tree, the
generated summary block is reachable from the root by the generator name
"summarize" and carries the generated text. -/
theorem generated_block_attached_witness :
    ∃ child, analyzerFirstTree.children.find? "summarize" = some child ∧
      child.text = "a summary." :=
  generated_block_attached [sentimentSkill, summarizeSkill]
    respAnalyzerFirst.blocks 1 rootBlockWithSentiment analyzerFirstTree
    summaryBlockStep2 rfl (by decide) (by decide)

theorem chain_parents_subset {pid : Nat} {cs : List ResponseBlock}
    (h : ChainFrom pid cs) :
    ∀ c ∈ cs, c.parent_block_id ∈ pid :: cs.map ResponseBlock.block_id := by
  induction h with
  | nil pid =>
    intro c hc
    cases hc
  | cons pid b rest horigin hparent hrest ih =>
    intro c hc
    rcases List.mem_cons.1 hc with rfl | hcr
    · simp [hparent]
    · have := ih c hcr
      simp only [List.map_cons, List.mem_cons] at this ⊢
      tauto

theorem chain_filter (pid : Nat) (cs : List ResponseBlock)
    (h : ChainFrom pid cs) (hnd : pid ∉ cs.map ResponseBlock.block_id) :
    cs.filter (fun c => decide (c.origin_step_id ≠ 0 ∧ c.parent_block_id = pid))
      = cs.take 1 := by
  cases h with
  | nil => rfl
  | cons pid b rest horigin hparent hrest =>
    have hb : (decide (b.origin_step_id ≠ 0 ∧ b.parent_block_id = pid)) = true := by
      simp [horigin, hparent]
    have hfail : ∀ d ∈ rest,
        (decide (d.origin_step_id ≠ 0 ∧ d.parent_block_id = pid)) = false := by
      intro d hd
      simp only [decide_eq_false_iff_not, not_and]
      intro _ hdp
      have hmem := chain_parents_subset hrest d hd
      rw [hdp] at hmem
      exact hnd (by simpa using hmem)
    have hrest0 : rest.filter
        (fun c => decide (c.origin_step_id ≠ 0 ∧ c.parent_block_id = pid)) = [] := by
      rw [List.filter_eq_nil_iff]
      intro d hd
      simp [hfail d hd]
    rw [List.filter_cons, hb, hrest0]
    rfl

theorem chain_path_aux :
    ∀ (cs ctx : List ResponseBlock) (b : ResponseBlock),
      ChainFrom b.block_id cs →
      (b.block_id :: cs.map ResponseBlock.block_id).Nodup →
      (∀ d ∈ ctx, d.origin_step_id ≠ 0 →
        d.parent_block_id ∉ b.block_id :: cs.map ResponseBlock.block_id) →
      PathFrom (ctx ++ cs) b cs.length := by
  intro cs
  induction cs with
  | nil =>
    intro ctx b _ _ hctx
    refine PathFrom.nil b ?_
    rw [List.append_nil]
    unfold childBlocksOf
    rw [List.filter_eq_nil_iff]
    intro d hd
    simp only [decide_eq_true_eq, not_and]
    intro h0 hp
    exact hctx d hd h0 (by simp [hp])
  | cons c rest ih =>
    intro ctx b hch hnd hctx
    cases hch with
    | cons _ _ _ horigin hparent hrest =>
      have hbid : b.block_id ∉ (c :: rest).map ResponseBlock.block_id :=
        (List.nodup_cons.1 hnd).1
      refine PathFrom.cons b c rest.length ?_ ?_
      · unfold childBlocksOf
        rw [List.filter_append]
        have h1 : ctx.filter
            (fun d => decide (d.origin_step_id ≠ 0 ∧ d.parent_block_id = b.block_id))
              = [] := by
          rw [List.filter_eq_nil_iff]
          intro d hd
          simp only [decide_eq_true_eq, not_and]
          intro h0 hp
          exact hctx d hd h0 (by simp [hp])
        have h2 : (c :: rest).filter
            (fun d => decide (d.origin_step_id ≠ 0 ∧ d.parent_block_id = b.block_id))
              = [c] :=
          chain_filter b.block_id (c :: rest)
            (ChainFrom.cons b.block_id c rest horigin hparent hrest) hbid
        rw [h1, h2]
        rfl
      · have hnd2 : (c.block_id :: rest.map ResponseBlock.block_id).Nodup := by
          have := (List.nodup_cons.1 hnd).2
          simpa using this
        have hctx2 : ∀ d ∈ ctx ++ [c], d.origin_step_id ≠ 0 →
            d.parent_block_id ∉ c.block_id :: rest.map ResponseBlock.block_id := by
          intro d hd h0
          rcases List.mem_append.1 hd with hdc | hdc
          · have := hctx d hdc h0
            intro hmem
            exact this (by simp [List.mem_cons] at hmem ⊢; tauto)
          · rcases List.mem_singleton.1 hdc with rfl
            rw [hparent]
            simpa using hbid
        have := ih (ctx ++ [c]) c hrest hnd2 hctx2
        simpa [List.append_assoc] using this

theorem path_build (steps : List SkillDescriptor) (blocks : List ResponseBlock) :
    ∀ (k : Nat) (b : ResponseBlock), PathFrom blocks b k →
      ∀ (fuel : Nat), k < fuel →
      ∃ node, buildNode steps blocks fuel b = .ok node ∧
        node.depth = k ∧ node.isLinear = true := by
  intro k b hp
  induction hp with
  | nil b hb =>
    intro fuel hf
    cases fuel with
    | zero => omega
    | succ m =>
      refine ⟨.mk b.text
        (partitionLabels (seedLabels steps b.origin_step_id) b.labels) .nil,
        ?_, rfl, rfl⟩
      unfold buildNode
      rw [hb]
      rfl
  | cons b c k hbc hrest ih =>
    intro fuel hf
    cases fuel with
    | zero => omega
    | succ m =>
      have hm : k < m := by omega
      obtain ⟨nc, hnc, hdep, hlin⟩ := ih m hm
      refine ⟨.mk b.text
        (partitionLabels (seedLabels steps b.origin_step_id) b.labels)
        (.cons c.origin_step_name nc .nil), ?_, ?_, ?_⟩
      · unfold buildNode
        rw [hbc]
        unfold buildChildren
        rw [hnc]
        rfl
      · show OutputNode.depth (.mk _ _ _) = k + 1
        unfold OutputNode.depth ChildMap.depths
        rw [hdep]
        simp [ChildMap.depths]
      · show OutputNode.isLinear (.mk _ _ _) = true
        unfold OutputNode.isLinear ChildMap.linearChildren
        exact hlin

/-- Claim C2: run on a response supplying `k` generated blocks forming a
well-formed parent chain under the root, a pipeline with `k` Generator
skills yields a tree of depth exactly `k` along a single linear path — at
most one child per node, with no fan-out. -/
theorem chain_tree_linear_depth :
    ∀ (p : PipelineSpec) (root : ResponseBlock) (cs : List ResponseBlock),
      countGenerators p.steps = cs.length →
      root.origin_step_id = 0 →
      ChainFrom root.block_id cs →
      ((root :: cs).map ResponseBlock.block_id).Nodup →
      (root :: cs).all blockSpansOk = true →
      ∃ t, buildOutputTree p ⟨root :: cs⟩ = .ok t ∧ t.depth = cs.length ∧
        t.isLinear = true := by
  intro p root cs hgen h0 hch hnd hsp
  have hpath : PathFrom (root :: cs) root cs.length := by
    have := chain_path_aux cs [root] root hch (by simpa using hnd) ?_
    · simpa using this
    · intro d hd h0'
      rcases List.mem_singleton.1 hd with rfl
      exact absurd h0 h0'
  obtain ⟨t, hbuild, hdep, hlin⟩ :=
    path_build p.steps (root :: cs) cs.length root hpath (root :: cs).length
      (by simp)
  refine ⟨t, ?_, hdep, hlin⟩
  have hpr : parentsResolve (root :: cs) = true := by
    unfold parentsResolve
    rw [List.all_eq_true]
    intro d hd
    rcases List.mem_cons.1 hd with rfl | hdc
    · simp [h0]
    · have hmem := chain_parents_subset hch d hdc
      simp only [Bool.or_eq_true, List.any_eq_true, decide_eq_true_eq]
      right
      have hmem2 : d.parent_block_id ∈ (root :: cs).map ResponseBlock.block_id := by
        simpa using hmem
      obtain ⟨q, hq, hqid⟩ := List.mem_map.1 hmem2
      exact ⟨q, hq, hqid⟩
  unfold buildOutputTree
  rw [if_neg (by simp [hpr]), if_neg (by simp [hsp])]
  have hfind : (root :: cs).find? (fun b => decide (b.origin_step_id = 0))
      = some root := by
    simp [List.find?, h0]
  rw [hfind]
  exact hbuild

/-- Claim C2 witness: the concrete one-generator pipeline
[Sentiments, Summarize] on its two-block chained response yields a linear
tree of depth 1. -/
theorem chain_tree_linear_depth_witness :
    ∃ t, buildOutputTree ⟨[sentimentSkill, summarizeSkill]⟩
        ⟨[rootBlockWithSentiment, summaryBlockStep2]⟩ = .ok t ∧
      t.depth = 1 ∧ t.isLinear = true :=
  chain_tree_linear_depth ⟨[sentimentSkill, summarizeSkill]⟩
    rootBlockWithSentiment [summaryBlockStep2] (by decide) (by decide)
    (ChainFrom.cons 0 summaryBlockStep2 [] (by decide) (by decide)
      (ChainFrom.nil 1))
    (by decide) (by decide)

theorem pollUntil_completes (poll : Nat → Nat → Except OneAIError PollResult)
    (job : Nat) (resp : Response) :
    ∀ (k attempt remaining : Nat), k < remaining →
      (∀ i, i < k → poll job (attempt + i) = .ok .inProgress) →
      poll job (attempt + k) = .ok (.completed resp) →
      pollUntil poll job attempt remaining = .ok resp := by
  intro k
  induction k with
  | zero =>
    intro attempt remaining hr _ hdone
    cases remaining with
    | zero => omega
    | succ m =>
      unfold pollUntil
      rw [show poll job attempt = .ok (.completed resp) from hdone]
  | succ k ih =>
    intro attempt remaining hr hprog hdone
    cases remaining with
    | zero => omega
    | succ m =>
      unfold pollUntil
      have h0 : poll job attempt = .ok .inProgress := by
        have := hprog 0 (by omega)
        simpa using this
      rw [h0]
      apply ih (attempt + 1) m (by omega)
      · intro i hi
        have h1 := hprog (i + 1) (by omega)
        rw [show attempt + 1 + i = attempt + (i + 1) from by omega]
        exact h1
      · rw [show attempt + 1 + k = attempt + (k + 1) from by omega]
        exact hdone

/-- Claim C10: the synchronous run path and the asynchronous
submit-then-poll run path are observationally equivalent ways of obtaining
the tree from the same final response: whenever the polled final response
agrees with the synchronous one, the two entry points return the same
result; and polling yields the final response as soon as the job
completes. -/
theorem sync_async_equivalent :
    (∀ (send : EncodedRequest → Except OneAIError Response)
       (submit : EncodedRequest → Except OneAIError Nat)
       (poll : Nat → Nat → Except OneAIError PollResult) (attempts : Nat)
       (steps : List SkillDescriptor) (input : InputPayload),
       (∀ req, asyncResponse submit poll attempts req = send req) →
       runPipelineAsync submit poll attempts steps input
         = runPipeline send steps input) ∧
    (∀ (poll : Nat → Nat → Except OneAIError PollResult) (job : Nat)
       (resp : Response) (k attempts : Nat), k < attempts →
       (∀ i, i < k → poll job i = .ok .inProgress) →
       poll job k = .ok (.completed resp) →
       pollUntil poll job 0 attempts = .ok resp) := by
  constructor
  · intro send submit poll attempts steps input h
    have hfg : asyncResponse submit poll attempts = send := funext h
    show runPipeline (asyncResponse submit poll attempts) steps input
      = runPipeline send steps input
    rw [hfg]
  · intro poll job resp k attempts hk hprog hdone
    refine pollUntil_completes poll job resp k 0 attempts hk ?_ ?_
    · intro i hi
      simpa using hprog i hi
    · simpa using hdone

/-- Claim C10 witness: for a concrete transport whose polling completes on
the second attempt with the same response the synchronous transport sends,
the two run paths return identical results, and polling delivers that
response. -/
theorem sync_async_equivalent_witness :
    (runPipelineAsync jobSubmit jobPoll 3 [keywordSkill, sentimentSkill]
        (.plainText "analyze this text.")
      = runPipeline syncSend [keywordSkill, sentimentSkill]
        (.plainText "analyze this text.")) ∧
    pollUntil jobPoll 0 0 3 = .ok respMulti :=
  ⟨sync_async_equivalent.1 syncSend jobSubmit jobPoll 3
      [keywordSkill, sentimentSkill] (.plainText "analyze this text.")
      (fun _ => rfl),
   sync_async_equivalent.2 jobPoll 0 respMulti 1 3 (by omega)
      (fun i hi => by
        have h0 : i = 0 := by omega
        rw [h0]
        rfl)
      rfl⟩

end OneAI
